import Mathlib

/-!
Verification development for the `dh_price_counter` repository.

The repository is a small Node/Express service that synchronizes "deal" and
"deal line-item" records from an external Bitrix CRM into a local SQLite
store.  This file gives a shallow embedding of the parts of the code the
claims are about:

* `src/services/db.js`   — the `Db` class (`createTables`,
  `insertInTable`, `insertMultipleInTable`, `getAll`), modelled over an
  explicit relational state with SQLite's INSERT OR REPLACE semantics for
  the two declared tables;
* `src/services/deals.js` — the `DealsService` remote client
  (`getDealById`, `getDealsByFilter` with its pagination loop,
  `getDealProductRows`), modelled over remote oracles, with the promise
  outcome (resolved / rejected) made explicit;
* `src/index.js`          — the HTTP handlers (`add_deal_handler`,
  `get_deals_from_bx_insert_in_db`, `get_deals_product_rows_from_bx_insert_in_db`),
  modelled as functions from the database state and the remote oracles to
  an HTTP status and the new database state;
* `src/services/crypto.js` is absent from the repository snapshot; the
  credential vault is modelled from the spec (see `encryptText` below).

JavaScript values that flow into the store are modelled by `JsValue`
(numbers as `Rat`; IEEE float corner cases such as NaN never arise in the
claims).  SQLite storage values are modelled by `SqlValue`.  SQLite column
affinity conversion is not modelled; no claim mixes a numeric string and a
number for the same key.
-/

/-- A JavaScript value as it appears in the records the code builds. -/
inductive JsValue where
  | undefined : JsValue
  | null : JsValue
  | bool (b : Bool) : JsValue
  | num (q : Rat) : JsValue
  | str (s : String) : JsValue
deriving DecidableEq

/-- JavaScript truthiness, as used by `record[field] || null` in
`Db.insertMultipleInTable`. -/
def JsValue.truthy : JsValue → Bool
  | .undefined => false
  | .null => false
  | .bool b => b
  | .num q => decide (q ≠ 0)
  | .str s => decide (s ≠ "")

/-- A JavaScript object with string keys, in insertion order
(`Object.keys` / `Object.values` order). -/
abbrev JsRow := List (String × JsValue)

/-- Property access `obj[f]`; a missing property reads as `undefined`. -/
def JsRow.get : JsRow → String → JsValue
  | [], _ => .undefined
  | (k, v) :: rest, f => if f = k then v else JsRow.get rest f

/-- `Object.keys`, in insertion order. -/
def JsRow.keys (r : JsRow) : List String := r.map Prod.fst

/-- A value stored in an SQLite column. -/
inductive SqlValue where
  | null : SqlValue
  | int (i : Int) : SqlValue
  | real (q : Rat) : SqlValue
  | text (s : String) : SqlValue
deriving DecidableEq

/-- How the sqlite3 driver binds a JavaScript value into a statement. -/
def jsToSql : JsValue → SqlValue
  | .undefined => .null
  | .null => .null
  | .bool b => .int (if b then 1 else 0)
  | .num q => if q.den = 1 then .int q.num else .real q
  | .str s => .text s

/-- The value bound for a field in `Db.insertMultipleInTable`:
`record[field] || null` (falsy values become SQL NULL). -/
def jsBindVal (v : JsValue) : SqlValue :=
  if v.truthy then jsToSql v else SqlValue.null

/-- A stored row: column name / stored value pairs. -/
abbrev SqlRow := List (String × SqlValue)

/-- Reading a column of a stored row; a column the INSERT did not mention
holds its default, NULL. -/
def SqlRow.get : SqlRow → String → SqlValue
  | [], _ => .null
  | (k, v) :: rest, f => if f = k then v else SqlRow.get rest f

/-- One SQLite table: its declared unique constraints (the primary key
included), whether `id` is an AUTOINCREMENT column the INSERT does not
supply, its rows, and the next AUTOINCREMENT value. -/
structure Table where
  autoId : Bool
  uniqueKeys : List (List String)
  rows : List SqlRow
  nextId : Int
deriving DecidableEq

/-- A new row conflicts with a stored row on one unique key when every key
column of the new row is non-NULL and equal to the stored row's value
(SQLite treats NULLs as distinct in unique constraints). -/
def keyConflict (key : List String) (newRow oldRow : SqlRow) : Bool :=
  key.all fun c =>
    !(SqlRow.get newRow c == SqlValue.null) && (SqlRow.get newRow c == SqlRow.get oldRow c)

/-- Conflict on any of the table's unique constraints. -/
def rowConflict (t : Table) (newRow oldRow : SqlRow) : Bool :=
  t.uniqueKeys.any fun k => keyConflict k newRow oldRow

/-- SQLite `INSERT OR REPLACE INTO t (cols) VALUES (vals)`: rows
conflicting with the new row on any unique constraint are deleted, then
the new row is inserted (with a fresh `id` when the column is
AUTOINCREMENT and not supplied). -/
def Table.insertOrReplace (t : Table) (cols : List String) (vals : List SqlValue) : Table :=
  let base := cols.zip vals
  let row := if t.autoId && !(cols.contains "id") then ("id", SqlValue.int t.nextId) :: base else base
  { t with
    rows := t.rows.filter (fun r => !(rowConflict t row r)) ++ [row]
    nextId := t.nextId + 1 }

/-- The database: the tables that exist, by name. -/
abbrev Database := String → Option Table

def getTable (db : Database) (n : String) : Option Table := db n

def setTable (db : Database) (n : String) (t : Table) : Database :=
  fun m => if m = n then some t else db m

def emptyDb : Database := fun _ => none

/-- The `deals` schema from `Db.createTables`:
`id INTEGER NOT NULL PRIMARY KEY, title, category_id, price_type, date_create`. -/
def dealsTable0 : Table :=
  { autoId := false, uniqueKeys := [["id"]], rows := [], nextId := 1 }

/-- The `deals_products` schema from `Db.createTables`:
`id INTEGER PRIMARY KEY AUTOINCREMENT, deal_id, product_id, product_name,
price, discount, UNIQUE (deal_id, product_id)`. -/
def dealsProductsTable0 : Table :=
  { autoId := true, uniqueKeys := [["id"], ["deal_id", "product_id"]], rows := [], nextId := 1 }

/-- `CREATE TABLE IF NOT EXISTS` for one table. -/
def createIfAbsent (db : Database) (n : String) (t : Table) : Database :=
  match db n with
  | some _ => db
  | none => setTable db n t

/-- `Db.createTables`: creates `deals` and `deals_products` if absent. -/
def createTables (db : Database) : Database :=
  createIfAbsent (createIfAbsent db "deals" dealsTable0) "deals_products" dealsProductsTable0

/-- `Db.insertInTable(tableName, insertFields)`: one
`INSERT OR REPLACE INTO tableName (Object.keys) VALUES (Object.values)`.
An invalid table name throws (caught and logged: no write); a statement
against a missing table fails in its callback (logged: no write). -/
def insertInTable (db : Database) (n : String) (rec : JsRow) : Database :=
  if n = "" then db else
  match getTable db n with
  | none => db
  | some t => setTable db n (t.insertOrReplace (JsRow.keys rec) (rec.map fun p => jsToSql p.2))

/-- `Db.insertMultipleInTable(tableName, records)`: the column list is
taken from `Object.keys(records[0])`; one prepared
`INSERT OR REPLACE` is run per record with values
`fields.map(field => record[field] || null)`, all in one transaction.
Empty input throws (caught and logged: no write); statements against a
missing table fail in their callbacks (logged: no write). -/
def insertMultipleInTable (db : Database) (n : String) (records : List JsRow) : Database :=
  if n = "" then db else
  match records with
  | [] => db
  | r0 :: _ =>
    match getTable db n with
    | none => db
    | some t =>
      let fields := JsRow.keys r0
      setTable db n <| records.foldl
        (fun acc rec => acc.insertOrReplace fields (fields.map fun f => jsBindVal (JsRow.get rec f)))
        t

/-- `Db.getAll(tableName)`: `SELECT * FROM tableName`; an invalid name or
a missing table rejects the promise. -/
def getAll (db : Database) (n : String) : Except Unit (List SqlRow) :=
  if n = "" then .error () else
  match getTable db n with
  | none => .error ()
  | some t => .ok t.rows

/-! ## The remote client, `src/services/deals.js` -/

/-- The outcome of one of the client's promises: resolved with a value, or
rejected. -/
inductive PromiseOutcome (α : Type) where
  | resolved (v : α) : PromiseOutcome α
  | rejected : PromiseOutcome α
deriving DecidableEq

def PromiseOutcome.isResolved : PromiseOutcome α → Bool
  | .resolved _ => true
  | .rejected => false

/-- The page size constant of `deals.js`. -/
def pageSize : Nat := 50

/-- One `bx.deals.list` response: `{ result: [...], total: N }`. -/
structure PageRes (α : Type) where
  result : List α
  total : Nat
deriving DecidableEq

/-- `DealsService.getDealById`'s field mapping from the raw remote record. -/
def mapDealFields (raw : JsRow) : JsRow :=
  [("id", raw.get "ID"), ("title", raw.get "TITLE"), ("category_id", raw.get "CATEGORY_ID"),
   ("price_type", raw.get "UF_CRM_1710140074001"), ("date_create", raw.get "DATE_CREATE")]

/-- `DealsService.getDealById`: the remote call either yields a raw record
or throws; a throw is caught and the promise resolves `null`. -/
def getDealById (remote : Except Unit JsRow) : PromiseOutcome (Option JsRow) :=
  match remote with
  | .error _ => .resolved none
  | .ok raw => .resolved (some (mapDealFields raw))

/-- The pagination loop of `DealsService.getDealsByFilter`, with fuel.
`remote start` models `bx.deals.list({..., start})`: a response or a
throw.  The loop body is, in order: read `res.total`, advance `start` by
`pageSize`, append `res.result`, break if `res.total < pageSize`, and
continue `while (start < total)`.  A throw anywhere exits to the catch,
which resolves `null`.  The result also records the offsets requested so
far; `none` means the fuel ran out with the promise still pending. -/
def dealsListLoop (remote : Nat → Except Unit (PageRes α)) :
    Nat → Nat → List α → List Nat → Option (List Nat × PromiseOutcome (Option (List α)))
  | 0, _, _, _ => none
  | fuel + 1, start, acc, offs =>
    match remote start with
    | .error _ => some (offs ++ [start], .resolved none)
    | .ok res =>
      let offs2 := offs ++ [start]
      let acc2 := acc ++ res.result
      let start2 := start + pageSize
      if res.total < pageSize then some (offs2, .resolved (some acc2))
      else if start2 < res.total then dealsListLoop remote fuel start2 acc2 offs2
      else some (offs2, .resolved (some acc2))

/-- `DealsService.getDealsByFilter`: run the pagination loop from offset 0. -/
def getDealsByFilter (remote : Nat → Except Unit (PageRes α)) (fuel : Nat) :
    Option (List Nat × PromiseOutcome (Option (List α))) :=
  dealsListLoop remote fuel 0 [] []

/-- A remote that faithfully serves a fixed record list: page at offset
`o` is the next `pageSize` records, `total` is the record count. -/
def faithfulRemote (recs : List α) : Nat → Except Unit (PageRes α) :=
  fun o => .ok ⟨(recs.drop o).take pageSize, recs.length⟩

/-- A misbehaving remote: it always returns no records while reporting a
total larger than the current offset. -/
def growingTotalRemote : Nat → Except Unit (PageRes Nat) :=
  fun o => .ok ⟨[], o + 100⟩

/-- `DealsService.getDealProductRows`'s field mapping. -/
def mapProductRow (raw : JsRow) : JsRow :=
  [("PRODUCT_ID", raw.get "PRODUCT_ID"), ("PRODUCT_NAME", raw.get "PRODUCT_NAME"),
   ("PRICE_BRUTTO", raw.get "PRICE_BRUTTO"), ("DISCOUNT_SUM", raw.get "DISCOUNT_SUM")]

/-- `DealsService.getDealProductRows`: a throw from the remote call is
caught and the promise resolves `null`. -/
def getDealProductRows (remote : Except Unit (List JsRow)) : PromiseOutcome (Option (List JsRow)) :=
  match remote with
  | .error _ => .resolved none
  | .ok rows => .resolved (some (rows.map mapProductRow))

/-! ## The HTTP handlers, `src/index.js` -/

/-- The HTTP status classes the handlers produce. -/
inductive HandlerRes where
  | success : HandlerRes
  | badRequest : HandlerRes
  | serverError : HandlerRes
deriving DecidableEq

/-- JavaScript `Number(x)`; `none` models NaN.  (Strings holding a
decimal point are not needed by any claim and map to NaN here.) -/
def jsNumber : JsValue → Option Rat
  | .undefined => none
  | .null => some 0
  | .bool b => some (if b then 1 else 0)
  | .num q => some q
  | .str s => if s = "" then some 0 else (s.toInt?).map fun i => (i : Rat)

/-- A SQLite row value read back into JavaScript. -/
def sqlToJs : SqlValue → JsValue
  | .null => .null
  | .int i => .num i
  | .real q => .num q
  | .text s => .str s

/-- The line-item record built by the handlers from a mapped product row:
`{deal_id, product_id: PRODUCT_ID, product_name: PRODUCT_NAME,
price: PRICE_BRUTTO, discount: DISCOUNT_SUM}`. -/
def mkProductRecord (dealId : JsValue) (pr : JsRow) : JsRow :=
  [("deal_id", dealId), ("product_id", pr.get "PRODUCT_ID"),
   ("product_name", pr.get "PRODUCT_NAME"), ("price", pr.get "PRICE_BRUTTO"),
   ("discount", pr.get "DISCOUNT_SUM")]

/-- `POST add_deal_handler/` (src/index.js:63-96), after credential
decryption.  `id` is the deal id from query or body; `remoteDeal` and
`remoteRows` are the two remote calls' behaviours.  Faithful points:
the eligibility check is
`Number(deal.category_id) !== 68 && Number(deal.price_type) !== 616`;
a `null` deal or `null` product rows makes the next property access throw
a TypeError, caught as a 500; the line items go to table `"deal_products"`. -/
def add_deal_handler (db : Database) (id : Option String)
    (remoteDeal : Except Unit JsRow) (remoteRows : Except Unit (List JsRow)) :
    HandlerRes × Database :=
  match id with
  | none => (.badRequest, db)
  | some _ =>
    match getDealById remoteDeal with
    | .rejected => (.serverError, db)
    | .resolved none => (.serverError, db)
    | .resolved (some deal) =>
      if jsNumber (deal.get "category_id") ≠ some 68 ∧ jsNumber (deal.get "price_type") ≠ some 616 then
        (.serverError, db)
      else
        let db1 := insertInTable db "deals" deal
        match getDealProductRows remoteRows with
        | .rejected => (.serverError, db1)
        | .resolved none => (.serverError, db1)
        | .resolved (some productrows) =>
          let records := productrows.map (mkProductRecord (deal.get "id"))
          (.success, insertMultipleInTable db1 "deal_products" records)

/-- `POST get_deals_from_bx_insert_in_db/` (src/index.js:98-124), after
credential decryption.  A `null` from `getDealsByFilter` makes
`null.map` throw, caught as a 500.  `none` means the pagination loop is
still pending within the fuel. -/
def get_deals_from_bx_handler (db : Database)
    (remotePages : Nat → Except Unit (PageRes JsRow)) (fuel : Nat) :
    Option (HandlerRes × Database) :=
  match getDealsByFilter remotePages fuel with
  | none => none
  | some (_, .rejected) => some (.serverError, db)
  | some (_, .resolved none) => some (.serverError, db)
  | some (_, .resolved (some rawDeals)) =>
    some (.success, insertMultipleInTable db "deals" (rawDeals.map mapDealFields))

/-- The record-collection loop of
`POST get_deals_product_rows_from_bx_insert_in_db/`: for each stored deal
fetch its product rows; a `null` makes `null.forEach` throw (`none`). -/
def collectProductRecords (fetchRows : SqlValue → Except Unit (List JsRow)) :
    List SqlRow → List JsRow → Option (List JsRow)
  | [], acc => some acc
  | deal :: rest, acc =>
    match getDealProductRows (fetchRows (SqlRow.get deal "id")) with
    | .rejected => none
    | .resolved none => none
    | .resolved (some prs) =>
      collectProductRecords fetchRows rest
        (acc ++ prs.map (mkProductRecord (sqlToJs (SqlRow.get deal "id"))))

/-- `POST get_deals_product_rows_from_bx_insert_in_db/`
(src/index.js:126-147), after credential decryption.  A throw anywhere
(including `null.forEach`) is caught as a 500 before any write. -/
def get_deals_product_rows_handler (db : Database)
    (fetchRows : SqlValue → Except Unit (List JsRow)) : HandlerRes × Database :=
  match getAll db "deals" with
  | .error _ => (.serverError, db)
  | .ok deals =>
    match collectProductRecords fetchRows deals [] with
    | none => (.serverError, db)
    | some records => (.success, insertMultipleInTable db "deals_products" records)

/-! ## The credential vault

`src/index.js` imports `encryptText`, `decryptText` and
`generateCryptoKeyAndIV` from `src/services/crypto.js`, which is not part
of the repository snapshot; only its callers are.  The cipher is modelled
from the spec. -/

/-- Modelled from the spec: `src/services/crypto.js` is missing from the
snapshot.  Section 4.1 requires a block cipher in a mode requiring both a
key and an IV (CBC).  We model CBC chaining over a one-byte XOR block
cipher: each ciphertext block is `E(p XOR prev)` with `E = XOR key`, the
previous ciphertext block (initially the IV) being chained in. -/
def cbcEncryptGo (key : Nat) (prev : Nat) : List Nat → List Nat
  | [] => []
  | p :: ps =>
    let c := (p ^^^ prev) ^^^ key
    c :: cbcEncryptGo key c ps

/-- Modelled from the spec: encryption of a plaintext (byte list) under a
key and IV. -/
def encryptText (plain : List Nat) (key iv : Nat) : List Nat :=
  cbcEncryptGo key iv plain

/-- Modelled from the spec: CBC decryption chaining. -/
def cbcDecryptGo (key : Nat) (prev : Nat) : List Nat → List Nat
  | [] => []
  | c :: cs => ((c ^^^ key) ^^^ prev) :: cbcDecryptGo key c cs

/-- Modelled from the spec: decryption under a key and IV. -/
def decryptText (cipher : List Nat) (key iv : Nat) : List Nat :=
  cbcDecryptGo key iv cipher

/-! ## Concrete inputs used by counterexamples and evaluations -/

/-- A remote deal whose `category_id` is not the accepted 68 but whose
price type is the accepted 616. -/
def c1RawDeal : JsRow :=
  [("ID", .str "10"), ("TITLE", .str "Bad category deal"), ("CATEGORY_ID", .num 50),
   ("UF_CRM_1710140074001", .num 616), ("DATE_CREATE", .str "2024-01-01")]

/-- A line-item record for deal `d`, product `p`. -/
def dpRecord (d p : Int) (nm : String) (pr di : Rat) : JsRow :=
  [("deal_id", .num d), ("product_id", .num p), ("product_name", .str nm),
   ("price", .num pr), ("discount", .num di)]

/-- Does a stored row carry the line-item key `(d, p)`? -/
def dpKeyMatch (d p : Int) (r : SqlRow) : Bool :=
  (SqlRow.get r "deal_id" == SqlValue.int d) && (SqlRow.get r "product_id" == SqlValue.int p)

/-- The stored form of a deal record inserted by `insertInTable`. -/
def dealSqlRow (raw : JsRow) : SqlRow :=
  (mapDealFields raw).map fun p => (p.1, jsToSql p.2)

/-- Drop one field from a record. -/
def eraseField (f : String) (r : JsRow) : JsRow := r.filter fun p => p.1 != f

/-- Replace every falsy value of a record by JavaScript `null`. -/
def nullifyFalsy (r : JsRow) : JsRow :=
  r.map fun p => (p.1, if p.2.truthy then p.2 else JsValue.null)

/-- A remote deal that fails both the category and the price-type check. -/
def c1RawDealBoth : JsRow :=
  [("ID", .str "11"), ("TITLE", .str "Fully ineligible deal"), ("CATEGORY_ID", .num 50),
   ("UF_CRM_1710140074001", .num 500), ("DATE_CREATE", .str "2024-01-02")]

/-- A record whose price is falsy (0). -/
def c9RecA : JsRow := [("deal_id", .num 1), ("product_id", .num 2), ("price", .num 0)]

/-- A record with a field (discount) that the first record of the batch lacks. -/
def c9RecB : JsRow :=
  [("deal_id", .num 1), ("product_id", .num 3), ("price", .num 5), ("discount", .num 7)]

/-- The stored table after inserting the batch `[c9RecA, c9RecB]` into a fresh
`deals_products`: the falsy price of the first record is stored as NULL, and
the `discount` field of the second record is dropped because the column list
came from the first record. -/
def c9Expected : Table :=
  { autoId := true, uniqueKeys := [["id"], ["deal_id", "product_id"]],
    rows := [[("id", .int 1), ("deal_id", .int 1), ("product_id", .int 2), ("price", .null)],
             [("id", .int 2), ("deal_id", .int 1), ("product_id", .int 3), ("price", .int 5)]],
    nextId := 3 }

def c5Deal1 : JsRow :=
  [("id", .num 1), ("title", .str "Deal one"), ("category_id", .num 68),
   ("price_type", .num 616), ("date_create", .str "d1")]

def c5Deal2 : JsRow :=
  [("id", .num 2), ("title", .str "Deal two"), ("category_id", .num 68),
   ("price_type", .num 616), ("date_create", .str "d2")]

/-- A store holding two synced deals (ids 1 and 2). -/
def c5Db : Database := insertMultipleInTable (createTables emptyDb) "deals" [c5Deal1, c5Deal2]

/-- The deals table of `c5Db`, written out. -/
def c5DealsTable : Table :=
  { autoId := false, uniqueKeys := [["id"]],
    rows := [[("id", .int 1), ("title", .text "Deal one"), ("category_id", .int 68),
              ("price_type", .int 616), ("date_create", .text "d1")],
             [("id", .int 2), ("title", .text "Deal two"), ("category_id", .int 68),
              ("price_type", .int 616), ("date_create", .text "d2")]],
    nextId := 3 }

/-- The stored row of deal 2 in `c5Db`. -/
def c5Row2 : SqlRow :=
  [("id", .int 2), ("title", .text "Deal two"), ("category_id", .int 68),
   ("price_type", .int 616), ("date_create", .text "d2")]

def c5ProductRow : JsRow :=
  [("PRODUCT_ID", .num 7), ("PRODUCT_NAME", .str "Widget"), ("PRICE_BRUTTO", .num 100),
   ("DISCOUNT_SUM", .num 5)]

/-- A remote for which fetching product rows succeeds for deal 1 but throws
for every other deal, so the client resolves null there. -/
def c5Fetch : SqlValue → Except Unit (List JsRow) :=
  fun v => if v == SqlValue.int 1 then .ok [c5ProductRow] else .error ()

def c8Deal1 : JsRow :=
  [("id", .num 1), ("title", .str "Deal one"), ("category_id", .num 68),
   ("price_type", .num 616), ("date_create", .str "2024-01-01")]

def c8Deal2 : JsRow :=
  [("id", .num 2), ("title", .str "Deal two"), ("category_id", .num 68),
   ("price_type", .num 616), ("date_create", .str "2024-01-02")]

/-- Deal 1 again, with a changed title. -/
def c8Deal1v2 : JsRow :=
  [("id", .num 1), ("title", .str "Deal one updated"), ("category_id", .num 68),
   ("price_type", .num 616), ("date_create", .str "2024-01-01")]

/-- Insert deals 1 and 2, then re-insert deal 1 with the changed title. -/
def c8Db : Database :=
  insertInTable
    (insertInTable (insertInTable (createTables emptyDb) "deals" c8Deal1) "deals" c8Deal2)
    "deals" c8Deal1v2

/-- An eligible remote deal (category 68, price type 616). -/
def c10Raw : JsRow :=
  [("ID", .str "7"), ("TITLE", .str "Good deal"), ("CATEGORY_ID", .num 68),
   ("UF_CRM_1710140074001", .num 616), ("DATE_CREATE", .str "2024-02-02")]

/-! ## Helper lemmas and claim theorems -/

/-- One unfolding of the pagination loop. -/
theorem dealsListLoop_succ {α : Type} (remote : Nat → Except Unit (PageRes α))
    (fuel start : Nat) (acc : List α) (offs : List Nat) :
    dealsListLoop remote (fuel + 1) start acc offs =
      match remote start with
      | .error _ => some (offs ++ [start], .resolved none)
      | .ok res =>
        if res.total < pageSize then some (offs ++ [start], .resolved (some (acc ++ res.result)))
        else if start + pageSize < res.total then
          dealsListLoop remote fuel (start + pageSize) (acc ++ res.result) (offs ++ [start])
        else some (offs ++ [start], .resolved (some (acc ++ res.result))) := rfl

/-- Invariant lemma for the pagination loop against a faithful remote. -/
theorem faithful_loop {α : Type} (recs : List α) :
    ∀ (fuel start : Nat) (acc : List α) (offs : List Nat),
    recs.length ≤ start + pageSize * fuel →
    ∃ offs2, dealsListLoop (faithfulRemote recs) (fuel + 1) start acc offs =
      some (offs2, .resolved (some (acc ++ recs.drop start))) := by
  have hp : pageSize = 50 := rfl
  intro fuel
  induction fuel with
  | zero =>
    intro start acc offs h
    rw [hp] at h
    refine ⟨offs ++ [start], ?_⟩
    have hdrop : recs.drop start = [] := List.drop_eq_nil_of_le (by omega)
    rw [dealsListLoop_succ]
    simp only [faithfulRemote, hdrop, List.take_nil, List.append_nil]
    by_cases h1 : recs.length < pageSize
    · simp [h1]
    · have h2 : ¬ (start + pageSize < recs.length) := by rw [hp]; omega
      simp [h1, h2]
  | succ n ih =>
    intro start acc offs h
    rw [dealsListLoop_succ]
    simp only [faithfulRemote]
    by_cases h1 : recs.length < pageSize
    · refine ⟨offs ++ [start], ?_⟩
      have htake : (recs.drop start).take pageSize = recs.drop start :=
        List.take_of_length_le (by rw [List.length_drop, hp]; rw [hp] at h1; omega)
      simp [h1, htake]
    · by_cases h2 : start + pageSize < recs.length
      · obtain ⟨offs2, hrec⟩ := ih (start + pageSize) (acc ++ (recs.drop start).take pageSize)
          (offs ++ [start]) (by rw [hp] at h ⊢; omega)
        refine ⟨offs2, ?_⟩
        simp only [if_neg h1, if_pos h2]
        rw [hrec, List.append_assoc, List.drop_take_append_drop]
      · refine ⟨offs ++ [start], ?_⟩
        have htake : (recs.drop start).take pageSize = recs.drop start :=
          List.take_of_length_le (by rw [List.length_drop, hp]; rw [hp] at h1 h2; omega)
        simp [if_neg h1, if_neg h2, htake]

/-- C2: against a remote that faithfully serves a fixed record list (page size 50, reported total equal to the record count), getDealsByFilter returns exactly the total number of records, concatenated in order, for any total including 0 and totals that are not multiples of 50; with total 120 the loop requests offsets 0, 50 and 100 and returns the 120 records. -/
theorem c2_pagination {α : Type} (recs : List α) :
    ∃ offs, getDealsByFilter (faithfulRemote recs) (recs.length / pageSize + 2) =
        some (offs, .resolved (some recs)) ∧
      (recs.length = 120 → offs = [0, 50, 100]) := by
  have hp : pageSize = 50 := rfl
  have hfuel : recs.length ≤ 0 + pageSize * (recs.length / pageSize + 1) := by
    rw [hp]
    have h1 := Nat.div_add_mod recs.length 50
    have h2 : recs.length % 50 < 50 := Nat.mod_lt _ (by omega)
    omega
  obtain ⟨offs, hgen⟩ := faithful_loop recs (recs.length / pageSize + 1) 0 [] [] hfuel
  rw [List.drop_zero, List.nil_append] at hgen
  refine ⟨offs, hgen, ?_⟩
  intro h120
  have hfuel4 : recs.length / pageSize + 2 = 4 := by rw [hp, h120]
  rw [hfuel4] at hgen
  have hconc : getDealsByFilter (faithfulRemote recs) 4 =
      some ([0, 50, 100], .resolved (some ((recs.drop 0).take pageSize ++
        ((recs.drop 50).take pageSize ++ (recs.drop 100).take pageSize)))) := by
    show dealsListLoop (faithfulRemote recs) 4 0 [] [] = _
    rw [show (4 : Nat) = 3 + 1 from rfl, dealsListLoop_succ]
    simp only [faithfulRemote, hp, h120]
    norm_num
    rw [show (3 : Nat) = 2 + 1 from rfl, dealsListLoop_succ]
    simp only [faithfulRemote, hp, h120]
    norm_num
    rw [show (2 : Nat) = 1 + 1 from rfl, dealsListLoop_succ]
    simp only [faithfulRemote, hp, h120]
    norm_num
  simp only [getDealsByFilter] at hconc
  rw [hgen] at hconc
  exact congrArg Prod.fst (Option.some.inj hconc)

/-- Against the growing-total remote the loop never finishes, whatever the fuel. -/
theorem growingTotal_loop_none :
    ∀ (fuel start : Nat) (acc : List Nat) (offs : List Nat),
    dealsListLoop growingTotalRemote fuel start acc offs = none := by
  intro fuel
  induction fuel with
  | zero => intro start acc offs; rfl
  | succ n ih =>
    intro start acc offs
    rw [dealsListLoop_succ]
    simp only [growingTotalRemote]
    rw [if_neg (by simp only [pageSize]; omega), if_pos (by simp only [pageSize]; omega)]
    exact ih _ _ _

/-- C7 counterexample: the pagination loop has no guard against a misreported total: against growingTotalRemote, whose reported total always exceeds the current offset, no amount of fuel makes the loop finish — the code loops indefinitely instead of raising a protocol violation. -/
theorem c7_counter :
    ¬ ∃ fuel, (dealsListLoop growingTotalRemote fuel 0 [] []).isSome = true := by
  rintro ⟨fuel, h⟩
  rw [growingTotal_loop_none] at h
  simp at h

/-- Termination whenever every successful page reports one constant total. -/
theorem constantTotal_loop_some {α : Type} (remote : Nat → Except Unit (PageRes α)) (T : Nat)
    (hT : ∀ o res, remote o = .ok res → res.total = T) :
    ∀ (fuel start : Nat) (acc : List α) (offs : List Nat),
    T ≤ start + pageSize * fuel →
    (dealsListLoop remote (fuel + 1) start acc offs).isSome = true := by
  have hp : pageSize = 50 := rfl
  intro fuel
  induction fuel with
  | zero =>
    intro start acc offs h
    rw [dealsListLoop_succ]
    rcases hrem : remote start with e | res
    · rfl
    · have htot := hT start res hrem
      dsimp only
      by_cases h1 : res.total < pageSize
      · rw [if_pos h1]; rfl
      · rw [if_neg h1, if_neg (by omega)]; rfl
  | succ n ih =>
    intro start acc offs h
    rw [dealsListLoop_succ]
    rcases hrem : remote start with e | res
    · rfl
    · have htot := hT start res hrem
      dsimp only
      by_cases h1 : res.total < pageSize
      · rw [if_pos h1]; rfl
      · by_cases h2 : start + pageSize < res.total
        · rw [if_neg h1, if_pos h2]
          exact ih (start + pageSize) (acc ++ res.result) (offs ++ [start])
            (by rw [hp] at h ⊢; omega)
        · rw [if_neg h1, if_neg h2]; rfl

/-- C7 amended: the pagination loop terminates whenever the remote reports one constant finite total, because the offset strictly grows by the page size each round; nothing detects a misreported total (see the counterexample). -/
theorem c7_amended (α : Type) (remote : Nat → Except Unit (PageRes α)) (T : Nat)
    (hT : ∀ o res, remote o = .ok res → res.total = T) :
    (getDealsByFilter remote (T / pageSize + 2)).isSome = true := by
  have hp : pageSize = 50 := rfl
  have hfuel : T ≤ 0 + pageSize * (T / pageSize + 1) := by
    rw [hp]
    have h1 := Nat.div_add_mod T 50
    have h2 : T % 50 < 50 := Nat.mod_lt _ (by omega)
    omega
  exact constantTotal_loop_some remote T hT (T / pageSize + 1) 0 [] [] hfuel

/-- C7 witness: termination at a constant total of 7. -/
theorem c7_amended_witness :
    (getDealsByFilter (fun _ => Except.ok (PageRes.mk ([] : List Nat) 7)) (7 / pageSize + 2)).isSome = true :=
  c7_amended Nat _ 7 (fun _ res h => by cases h; rfl)

/-- The pagination promise, when it settles, always settles by resolving. -/
theorem loop_never_rejects {α : Type} (remote : Nat → Except Unit (PageRes α)) :
    ∀ (fuel start : Nat) (acc : List α) (offs : List Nat)
      (out : List Nat × PromiseOutcome (Option (List α))),
    dealsListLoop remote fuel start acc offs = some out → out.2.isResolved = true := by
  intro fuel
  induction fuel with
  | zero => intro start acc offs out h; exact absurd h (by simp [dealsListLoop])
  | succ n ih =>
    intro start acc offs out h
    rw [dealsListLoop_succ] at h
    rcases hrem : remote start with e | res <;> rw [hrem] at h
    · cases Option.some.inj h; rfl
    · dsimp only at h
      by_cases h1 : res.total < pageSize
      · rw [if_pos h1] at h; cases Option.some.inj h; rfl
      · by_cases h2 : start + pageSize < res.total
        · rw [if_neg h1, if_pos h2] at h; exact ih _ _ _ _ h
        · rw [if_neg h1, if_neg h2] at h; cases Option.some.inj h; rfl

/-- C6: each remote client operation settles by resolving, never by rejecting: getDealById and getDealProductRows always resolve (null when the remote call throws), and whenever the pagination promise of getDealsByFilter settles, it is resolved (null when a page call throws). -/
theorem c6_fail_soft (α : Type) (remoteDeal : Except Unit JsRow)
    (remotePages : Nat → Except Unit (PageRes α)) (remoteRows : Except Unit (List JsRow))
    (fuel : Nat) (out : List Nat × PromiseOutcome (Option (List α))) :
    (getDealById remoteDeal).isResolved = true ∧
    (remoteDeal = .error () → getDealById remoteDeal = .resolved none) ∧
    (getDealsByFilter remotePages fuel = some out → out.2.isResolved = true) ∧
    (getDealProductRows remoteRows).isResolved = true ∧
    (remoteRows = .error () → getDealProductRows remoteRows = .resolved none) := by
  refine ⟨?_, ?_, ?_, ?_, ?_⟩
  · cases remoteDeal <;> rfl
  · intro h; rw [h]; rfl
  · exact loop_never_rejects remotePages fuel 0 [] [] out
  · cases remoteRows <;> rfl
  · intro h; rw [h]; rfl

/-- C6 witness: the three operations on always-failing remotes. -/
theorem c6_fail_soft_witness :
    (getDealById (.error ())).isResolved = true ∧
    (getDealById (.error ()) = .resolved none) ∧
    ((getDealsByFilter (fun _ => (.error () : Except Unit (PageRes Nat))) 1 =
        some ([0], .resolved none)) → PromiseOutcome.isResolved (.resolved (none : Option (List Nat))) = true) ∧
    (getDealProductRows (.error ())).isResolved = true ∧
    (getDealProductRows (.error ()) = .resolved none) := by
  have h := c6_fail_soft Nat (.error ()) (fun _ => .error ()) (.error ()) 1 ([0], .resolved none)
  exact ⟨h.1, h.2.1 rfl, fun hx => h.2.2.1 hx, h.2.2.2.1, h.2.2.2.2 rfl⟩

theorem cbc_roundtrip_go (key : Nat) :
    ∀ (ps : List Nat) (prev : Nat), cbcDecryptGo key prev (cbcEncryptGo key prev ps) = ps := by
  intro ps
  induction ps with
  | nil => intro prev; rfl
  | cons p ps ih =>
    intro prev
    simp only [cbcEncryptGo, cbcDecryptGo]
    rw [Nat.xor_cancel_right, Nat.xor_cancel_right, ih]

/-- C4 (spec-modelled): decrypting with the encrypting key and IV returns the plaintext, for every plaintext; decrypting with a different IV (nonempty plaintext) or a different key (plaintext of at least two blocks) yields a value different from the original — as in real CBC, a compensating wrong IV can mask a wrong key on a single first block. -/
theorem c4_crypto (plain : List Nat) (key iv : Nat) :
    decryptText (encryptText plain key iv) key iv = plain ∧
    (∀ key2 iv2,
      ((key2 = key ∧ iv2 ≠ iv ∧ plain ≠ []) ∨ (key2 ≠ key ∧ 2 ≤ plain.length)) →
      decryptText (encryptText plain key iv) key2 iv2 ≠ plain) := by
  constructor
  · exact cbc_roundtrip_go key plain iv
  · rintro key2 iv2 (⟨hk, hiv, hne⟩ | ⟨hk, hlen⟩) heq
    · rcases plain with _ | ⟨p, ps⟩
      · exact hne rfl
      · simp only [encryptText, cbcEncryptGo, decryptText, cbcDecryptGo, hk] at heq
        have h1 := (List.cons.inj heq).1
        rw [Nat.xor_cancel_right, Nat.xor_assoc] at h1
        have h2 : p ^^^ (iv ^^^ iv2) = p ^^^ 0 := by rw [Nat.xor_zero]; exact h1
        exact hiv (Nat.xor_eq_zero.mp (Nat.xor_right_inj.mp h2)).symm
    · rcases plain with _ | ⟨p0, rest⟩
      · simp at hlen
      · rcases rest with _ | ⟨p1, ps⟩
        · simp at hlen
        · simp only [encryptText, cbcEncryptGo, decryptText, cbcDecryptGo] at heq
          have h2 := (List.cons.inj (List.cons.inj heq).2).1
          have h3 := congrArg (fun z => z ^^^ ((p0 ^^^ iv) ^^^ key)) h2
          simp only at h3
          rw [Nat.xor_cancel_right, Nat.xor_assoc] at h3
          have h4 : (p1 ^^^ ((p0 ^^^ iv) ^^^ key)) ^^^ (key ^^^ key2) =
              (p1 ^^^ ((p0 ^^^ iv) ^^^ key)) ^^^ 0 := by rw [Nat.xor_zero]; exact h3
          exact hk (Nat.xor_eq_zero.mp (Nat.xor_right_inj.mp h4)).symm

/-- C4 witness: round trip and wrong-pair mismatch at concrete bytes. -/
theorem c4_crypto_witness :
    decryptText (encryptText [1, 2] 3 5) 3 5 = [1, 2] ∧
    decryptText (encryptText [1, 2] 3 6) 3 7 ≠ [1, 2] ∧
    decryptText (encryptText [1, 2] 3 5) 4 5 ≠ [1, 2] := by
  refine ⟨(c4_crypto [1, 2] 3 5).1, ?_, ?_⟩
  · exact (c4_crypto [1, 2] 3 6).2 3 7 (Or.inl ⟨rfl, by decide, by decide⟩)
  · exact (c4_crypto [1, 2] 3 5).2 4 5 (Or.inr ⟨by decide, by decide⟩)

/-- C2 witness: the 120-record scenario instantiated with the list range 0..119. -/
theorem c2_pagination_witness :
    ∃ offs, getDealsByFilter (faithfulRemote (List.range 120)) ((List.range 120).length / pageSize + 2) =
        some (offs, .resolved (some (List.range 120))) ∧ offs = [0, 50, 100] := by
  obtain ⟨offs, h1, h2⟩ := c2_pagination (List.range 120)
  exact ⟨offs, h1, h2 (by simp)⟩

theorem getTable_setTable_self (db : Database) (n : String) (t : Table) :
    getTable (setTable db n t) n = some t := by
  simp [getTable, setTable]

theorem getTable_setTable_ne (db : Database) (n m : String) (t : Table) (h : m ≠ n) :
    getTable (setTable db n t) m = getTable db m := by
  simp [getTable, setTable, h]

theorem insertMultipleInTable_found (db : Database) (n : String) (t : Table)
    (r0 : JsRow) (rest : List JsRow) (hn : ¬ n = "") (ht : getTable db n = some t) :
    insertMultipleInTable db n (r0 :: rest) =
      setTable db n ((r0 :: rest).foldl
        (fun acc rec =>
          acc.insertOrReplace (JsRow.keys r0) ((JsRow.keys r0).map fun f => jsBindVal (JsRow.get rec f)))
        t) := by
  simp only [insertMultipleInTable, if_neg hn, ht]

/-- C3: upserting the same (deal_id, product_id) key twice through insertMultipleInTable leaves exactly one row in deals_products, and that row carries the price and discount of the later record (key fields and the later price and discount nonzero, hence truthy). -/
theorem c3_upsert (d p : Int) (nm1 nm2 : String) (pr1 di1 pr2 di2 : Rat)
    (hd : d ≠ 0) (hp : p ≠ 0) (hpr : pr2 ≠ 0) (hdi : di2 ≠ 0) :
    ∃ t, getTable
        (insertMultipleInTable
          (insertMultipleInTable (createTables emptyDb) "deals_products" [dpRecord d p nm1 pr1 di1])
          "deals_products" [dpRecord d p nm2 pr2 di2]) "deals_products" = some t ∧
      t.rows.length = 1 ∧
      (t.rows.filter (dpKeyMatch d p)).length = 1 ∧
      ∀ r ∈ t.rows,
        SqlRow.get r "price" = jsToSql (.num pr2) ∧ SqlRow.get r "discount" = jsToSql (.num di2) := by
  have htd : (JsValue.num (d : Rat)).truthy = true := by
    simp [JsValue.truthy, Int.cast_ne_zero, hd]
  have htp : (JsValue.num (p : Rat)).truthy = true := by
    simp [JsValue.truthy, Int.cast_ne_zero, hp]
  have hbd : jsBindVal (JsValue.num (d : Rat)) = SqlValue.int d := by
    simp [jsBindVal, htd, jsToSql, Rat.den_intCast, Rat.num_intCast]
  have hbp : jsBindVal (JsValue.num (p : Rat)) = SqlValue.int p := by
    simp [jsBindVal, htp, jsToSql, Rat.den_intCast, Rat.num_intCast]
  have hbpr : jsBindVal (JsValue.num pr2) = jsToSql (.num pr2) := by
    simp [jsBindVal, JsValue.truthy, hpr]
  have hbdi : jsBindVal (JsValue.num di2) = jsToSql (.num di2) := by
    simp [jsBindVal, JsValue.truthy, hdi]
  have h0 : getTable (createTables emptyDb) "deals_products" = some dealsProductsTable0 := rfl
  rw [insertMultipleInTable_found _ _ _ _ _ (by decide) h0]
  rw [insertMultipleInTable_found _ _ _ _ _ (by decide) (getTable_setTable_self _ _ _)]
  refine ⟨_, getTable_setTable_self _ _ _, ?_⟩
  simp only [List.foldl_cons, List.foldl_nil]
  simp only [dpRecord, JsRow.keys, List.map_cons, List.map_nil, JsRow.get]
  have e1 : (SqlValue.int d == SqlValue.null) = false := beq_eq_false_iff_ne.mpr (by simp)
  have e2 : (SqlValue.int p == SqlValue.null) = false := beq_eq_false_iff_ne.mpr (by simp)
  simp [Table.insertOrReplace, dealsProductsTable0, hbd, hbp, hbpr, hbdi,
    rowConflict, keyConflict, SqlRow.get, dpKeyMatch, List.filter, e1, e2]

/-- C3 witness: the upsert collapse at concrete values. -/
theorem c3_upsert_witness :
    ∃ t, getTable
        (insertMultipleInTable
          (insertMultipleInTable (createTables emptyDb) "deals_products" [dpRecord 1 2 "a" 10 1])
          "deals_products" [dpRecord 1 2 "b" 20 2]) "deals_products" = some t ∧
      t.rows.length = 1 ∧
      (t.rows.filter (dpKeyMatch 1 2)).length = 1 ∧
      ∀ r ∈ t.rows,
        SqlRow.get r "price" = jsToSql (.num 20) ∧ SqlRow.get r "discount" = jsToSql (.num 2) :=
  c3_upsert 1 2 "a" "b" 10 1 20 2 (by decide) (by decide) (by decide) (by decide)

theorem get_eraseField_ne (f g : String) (h : g ≠ f) :
    ∀ r : JsRow, JsRow.get (eraseField f r) g = JsRow.get r g := by
  intro r
  induction r with
  | nil => rfl
  | cons kv rest ih =>
    obtain ⟨k, v⟩ := kv
    by_cases hk : k = f
    · simp only [eraseField, List.filter]
      rw [show (k != f) = false by simp [hk]]
      simp only [JsRow.get, if_neg (hk ▸ h)]
      exact ih
    · simp only [eraseField, List.filter]
      rw [show (k != f) = true by simp [hk]]
      simp only [JsRow.get]
      by_cases hg : g = k
      · rw [if_pos hg, if_pos hg]
      · rw [if_neg hg, if_neg hg]
        exact ih

theorem eraseField_of_not_mem (f : String) (r : JsRow) (h : f ∉ JsRow.keys r) :
    eraseField f r = r := by
  apply List.filter_eq_self.mpr
  intro a ha
  simp only [bne_iff_ne, ne_eq]
  intro haf
  exact h (by rw [← haf]; exact List.mem_map_of_mem Prod.fst ha)

theorem keys_nullifyFalsy (r : JsRow) : JsRow.keys (nullifyFalsy r) = JsRow.keys r := by
  simp [nullifyFalsy, JsRow.keys]

theorem bindVal_nullifyFalsy (g : String) :
    ∀ r : JsRow, jsBindVal (JsRow.get (nullifyFalsy r) g) = jsBindVal (JsRow.get r g) := by
  intro r
  induction r with
  | nil => rfl
  | cons kv rest ih =>
    obtain ⟨k, v⟩ := kv
    simp only [nullifyFalsy, List.map_cons, JsRow.get]
    by_cases hg : g = k
    · rw [if_pos hg, if_pos hg]
      by_cases hv : v.truthy = true
      · rw [if_pos hv]
      · rw [if_neg hv]
        simp only [jsBindVal]
        rw [if_neg hv, if_neg (show ¬ (JsValue.truthy JsValue.null = true) from by decide)]
    · rw [if_neg hg, if_neg hg]
      exact ih

theorem foldl_congr_mem {β γ : Type} (l : List γ) (f g : β → γ → β) :
    (∀ b a, a ∈ l → f b a = g b a) → ∀ init : β, l.foldl f init = l.foldl g init := by
  induction l with
  | nil => intro _ init; rfl
  | cons x xs ih =>
    intro h init
    simp only [List.foldl_cons]
    rw [h init x (List.mem_cons_self x xs)]
    exact ih (fun b a ha => h b a (List.mem_cons_of_mem x ha)) _

/-- C9: in insertMultipleInTable the column set comes from the first record only — a field absent from the first record can be erased from every record without changing the result — and every falsy field value is stored as SQL NULL — replacing each falsy value by null changes nothing; the concrete batch stores a price of 0 as NULL and drops a discount field present only in the second record. -/
theorem c9_column_semantics (db : Database) (n : String) (r0 : JsRow) (rest : List JsRow) (f : String) :
    (f ∉ JsRow.keys r0 →
      insertMultipleInTable db n (r0 :: rest) =
        insertMultipleInTable db n ((r0 :: rest).map (eraseField f))) ∧
    insertMultipleInTable db n (r0 :: rest) =
      insertMultipleInTable db n ((r0 :: rest).map nullifyFalsy) ∧
    getTable (insertMultipleInTable (createTables emptyDb) "deals_products" [c9RecA, c9RecB])
        "deals_products" = some c9Expected := by
  refine ⟨?_, ?_, by decide⟩
  · intro hf
    simp only [insertMultipleInTable, List.map_cons]
    by_cases hn : n = ""
    · rw [if_pos hn, if_pos hn]
    · rw [if_neg hn, if_neg hn]
      rw [eraseField_of_not_mem f r0 hf]
      cases hgt : getTable db n with
      | none => rfl
      | some t =>
        dsimp only
        refine congrArg (setTable db n) ?_
        rw [show (r0 :: rest.map (eraseField f)) = ((r0 :: rest).map (eraseField f)) from by
          simp [List.map_cons, eraseField_of_not_mem f r0 hf]]
        rw [List.foldl_map]
        apply foldl_congr_mem
        intro b a _
        apply congrArg
        apply List.map_congr_left
        intro g hg
        rw [get_eraseField_ne f g (fun hgf => hf (hgf ▸ hg)) a]
  · simp only [insertMultipleInTable, List.map_cons]
    by_cases hn : n = ""
    · rw [if_pos hn, if_pos hn]
    · rw [if_neg hn, if_neg hn]
      rw [keys_nullifyFalsy r0]
      cases hgt : getTable db n with
      | none => rfl
      | some t =>
        dsimp only
        refine congrArg (setTable db n) ?_
        rw [show (nullifyFalsy r0 :: rest.map nullifyFalsy) = ((r0 :: rest).map nullifyFalsy) from by
          simp [List.map_cons]]
        rw [List.foldl_map]
        apply foldl_congr_mem
        intro b a _
        apply congrArg
        apply List.map_congr_left
        intro g _
        rw [bindVal_nullifyFalsy g a]

theorem insertMultipleInTable_missing (db : Database) (n : String) (records : List JsRow)
    (hn : ¬ n = "") (h : getTable db n = none) : insertMultipleInTable db n records = db := by
  simp only [insertMultipleInTable, if_neg hn]
  cases records with
  | nil => rfl
  | cons r0 rest => rw [h]

theorem keys_zip_map (r : JsRow) :
    (JsRow.keys r).zip (r.map fun p => jsToSql p.2) = r.map fun p => (p.1, jsToSql p.2) := by
  induction r with
  | nil => rfl
  | cons kv rest ih =>
    simp only [JsRow.keys, List.map_cons, List.zip_cons_cons]
    rw [show List.zip (rest.map Prod.fst) (rest.map fun p => jsToSql p.2) =
      (JsRow.keys rest).zip (rest.map fun p => jsToSql p.2) from rfl, ih]

/-- C10: schema creation creates no table named deal_products, so the single-deal add, which sends its line-item batch to deal_products, leaves deals_products unchanged, while the deal row itself is still appended to deals. -/
theorem c10_wrong_table (db : Database) (td : Table) (idStr : String) (raw : JsRow)
    (rawRows : List JsRow)
    (hdeals : getTable db "deals" = some td)
    (hauto : td.autoId = false)
    (hdp : getTable db "deal_products" = none)
    (helig : jsNumber (JsRow.get (mapDealFields raw) "category_id") = some 68) :
    getTable (createTables emptyDb) "deal_products" = none ∧
    (add_deal_handler db (some idStr) (.ok raw) (.ok rawRows)).1 = HandlerRes.success ∧
    getTable (add_deal_handler db (some idStr) (.ok raw) (.ok rawRows)).2 "deals_products" =
      getTable db "deals_products" ∧
    ∃ t2, getTable (add_deal_handler db (some idStr) (.ok raw) (.ok rawRows)).2 "deals" = some t2 ∧
      t2.rows.getLast? = some (dealSqlRow raw) := by
  have hne : ¬ (jsNumber (JsRow.get (mapDealFields raw) "category_id") ≠ some 68 ∧
      jsNumber (JsRow.get (mapDealFields raw) "price_type") ≠ some 616) :=
    fun hc => hc.1 helig
  have hstep : add_deal_handler db (some idStr) (.ok raw) (.ok rawRows) =
      (HandlerRes.success,
        insertMultipleInTable (insertInTable db "deals" (mapDealFields raw)) "deal_products"
          ((rawRows.map mapProductRow).map (mkProductRecord (JsRow.get (mapDealFields raw) "id")))) := by
    simp only [add_deal_handler, getDealById, getDealProductRows]
    rw [if_neg hne]
  have hins : insertInTable db "deals" (mapDealFields raw) =
      setTable db "deals" (td.insertOrReplace (JsRow.keys (mapDealFields raw))
        ((mapDealFields raw).map fun p => jsToSql p.2)) := by
    simp only [insertInTable, hdeals]
    rw [if_neg (by decide)]
  have hmiss : getTable (insertInTable db "deals" (mapDealFields raw)) "deal_products" = none := by
    rw [hins, getTable_setTable_ne _ _ _ _ (by decide)]
    exact hdp
  have hstep2 : add_deal_handler db (some idStr) (.ok raw) (.ok rawRows) =
      (HandlerRes.success, insertInTable db "deals" (mapDealFields raw)) := by
    rw [hstep, insertMultipleInTable_missing _ _ _ (by decide) hmiss]
  refine ⟨by decide, by rw [hstep2], ?_, ?_⟩
  · rw [hstep2]
    dsimp only
    rw [hins, getTable_setTable_ne _ _ _ _ (by decide)]
  · refine ⟨_, by rw [hstep2]; dsimp only; rw [hins]; exact getTable_setTable_self _ _ _, ?_⟩
    dsimp only [Table.insertOrReplace]
    rw [hauto]
    simp only [Bool.false_and, Bool.false_eq_true, if_false]
    rw [keys_zip_map (mapDealFields raw)]
    exact List.getLast?_concat _

theorem collectProductRecords_none (fetch : SqlValue → Except Unit (List JsRow)) :
    ∀ (deals : List SqlRow) (acc : List JsRow),
    (∃ d ∈ deals, fetch (SqlRow.get d "id") = .error ()) →
    collectProductRecords fetch deals acc = none := by
  intro deals
  induction deals with
  | nil => intro acc h; simp at h
  | cons d rest ih =>
    intro acc ⟨x, hx, herr⟩
    rcases List.mem_cons.mp hx with hxd | hxr
    · subst hxd
      simp only [collectProductRecords, herr, getDealProductRows]
    · cases hf : fetch (SqlRow.get d "id") with
      | error e => simp only [collectProductRecords, hf, getDealProductRows]
      | ok rows =>
        simp only [collectProductRecords, hf, getDealProductRows]
        exact ih _ ⟨x, hxr, herr⟩

theorem collectProductRecords_some (fetch : SqlValue → Except Unit (List JsRow)) :
    ∀ (deals : List SqlRow) (acc : List JsRow),
    (∀ d ∈ deals, ∃ rows, fetch (SqlRow.get d "id") = .ok rows) →
    ∃ recs, collectProductRecords fetch deals acc = some recs := by
  intro deals
  induction deals with
  | nil => intro acc _; exact ⟨acc, rfl⟩
  | cons d rest ih =>
    intro acc h
    obtain ⟨rows, hrows⟩ := h d (List.mem_cons_self d rest)
    simp only [collectProductRecords, hrows, getDealProductRows]
    exact ih _ (fun x hx => h x (List.mem_cons_of_mem d hx))

/-- C5 amended: if any stored deal has its line-item fetch resolve null, the whole sync call fails with a generic server error and the store is unchanged; only when every fetch succeeds does the call report success; a null from the first fetch-by-id in the single-deal add also surfaces a generic server error with no write. -/
theorem c5_amended (db : Database) (td : Table) (fetch : SqlValue → Except Unit (List JsRow))
    (hdeals : getTable db "deals" = some td) :
    ((∃ d ∈ td.rows, fetch (SqlRow.get d "id") = .error ()) →
      get_deals_product_rows_handler db fetch = (HandlerRes.serverError, db)) ∧
    ((∀ d ∈ td.rows, ∃ rows, fetch (SqlRow.get d "id") = .ok rows) →
      (get_deals_product_rows_handler db fetch).1 = HandlerRes.success) ∧
    (∀ (idStr : String) (rows : Except Unit (List JsRow)),
      add_deal_handler db (some idStr) (.error ()) rows = (HandlerRes.serverError, db)) := by
  have hall : getAll db "deals" = .ok td.rows := by
    simp only [getAll, hdeals]
    rw [if_neg (by decide)]
  refine ⟨?_, ?_, ?_⟩
  · intro hex
    simp only [get_deals_product_rows_handler, hall]
    rw [collectProductRecords_none fetch td.rows [] hex]
  · intro hok
    obtain ⟨recs, hrecs⟩ := collectProductRecords_some fetch td.rows [] hok
    simp only [get_deals_product_rows_handler, hall, hrecs]
  · intro idStr rows
    rfl

/-- C5 counterexample: with deals 1 and 2 stored and the line-item fetch succeeding for deal 1 but resolving null for deal 2 (a failure other than the first required call), the handler returns a server error and writes nothing — the orchestrator does not continue with a reduced result set, refuting the claim. -/
theorem c5_counter :
    (get_deals_product_rows_handler c5Db c5Fetch).1 = HandlerRes.serverError ∧
    getTable (get_deals_product_rows_handler c5Db c5Fetch).2 "deals_products" =
      some dealsProductsTable0 ∧
    c5Fetch (SqlValue.int 1) = .ok [c5ProductRow] ∧
    (∃ rows, getAll c5Db "deals" = .ok rows ∧ rows.length = 2) :=
  ⟨by decide, by decide, rfl, ⟨_, rfl, by decide⟩⟩

/-- C5 witness: the amended behaviour at the concrete store. -/
theorem c5_amended_witness :
    get_deals_product_rows_handler c5Db c5Fetch = (HandlerRes.serverError, c5Db) ∧
    (get_deals_product_rows_handler c5Db (fun _ => .ok [])).1 = HandlerRes.success ∧
    add_deal_handler c5Db (some "9") (.error ()) (.ok []) = (HandlerRes.serverError, c5Db) := by
  have h := c5_amended c5Db c5DealsTable c5Fetch (by decide)
  have h2 := c5_amended c5Db c5DealsTable (fun _ => .ok []) (by decide)
  exact ⟨h.1 ⟨c5Row2, by decide, rfl⟩, h2.2.1 (fun d _ => ⟨[], rfl⟩), h.2.2 "9" (.ok [])⟩

/-- C1 evidence: a remote deal with category_id 50 (not the accepted 68) but price_type 616 is accepted by add_deal_handler — the code joins the two eligibility tests with a logical AND, rejecting only when both fail — and the ineligible deal is written to deals with a success response, where the claim (and the error message of the code itself) requires rejection; a deal failing both tests is rejected with no write. -/
theorem c1_eligibility_bug :
    (add_deal_handler (createTables emptyDb) (some "10") (.ok c1RawDeal) (.ok [])).1 =
      HandlerRes.success ∧
    getTable (add_deal_handler (createTables emptyDb) (some "10") (.ok c1RawDeal) (.ok [])).2
        "deals" =
      some { autoId := false, uniqueKeys := [["id"]],
             rows := [[("id", .text "10"), ("title", .text "Bad category deal"),
                       ("category_id", .int 50), ("price_type", .int 616),
                       ("date_create", .text "2024-01-01")]],
             nextId := 2 } ∧
    jsNumber ((mapDealFields c1RawDeal).get "category_id") ≠ some 68 ∧
    (add_deal_handler (createTables emptyDb) (some "11") (.ok c1RawDealBoth) (.ok [])).1 =
      HandlerRes.serverError ∧
    getTable (add_deal_handler (createTables emptyDb) (some "11") (.ok c1RawDealBoth) (.ok [])).2
        "deals" = some dealsTable0 := by
  refine ⟨by decide, by decide, by decide, by decide, by decide⟩

/-- C8: after inserting deals 1 and 2 and re-inserting deal 1 with a changed title, getAll on deals returns exactly 2 rows, among them one row with id 1 and one with id 2, and the row with id 1 carries the new title. -/
theorem c8_reinsert :
    ∃ rows, getAll c8Db "deals" = .ok rows ∧ rows.length = 2 ∧
      (∀ r ∈ rows, SqlRow.get r "id" = .int 1 →
        SqlRow.get r "title" = .text "Deal one updated") ∧
      (∃ r ∈ rows, SqlRow.get r "id" = .int 1) ∧
      (∃ r ∈ rows, SqlRow.get r "id" = .int 2) :=
  ⟨_, rfl, by decide, by decide, by decide, by decide⟩

/-- C10 witness: an eligible deal added to a fresh store. -/
theorem c10_wrong_table_witness :
    (add_deal_handler (createTables emptyDb) (some "7") (.ok c10Raw) (.ok [])).1 =
      HandlerRes.success ∧
    getTable (add_deal_handler (createTables emptyDb) (some "7") (.ok c10Raw) (.ok [])).2
        "deals_products" = getTable (createTables emptyDb) "deals_products" ∧
    ∃ t2, getTable (add_deal_handler (createTables emptyDb) (some "7") (.ok c10Raw) (.ok [])).2
        "deals" = some t2 ∧ t2.rows.getLast? = some (dealSqlRow c10Raw) := by
  have h := c10_wrong_table (createTables emptyDb) dealsTable0 "7" c10Raw []
    (by decide) (by decide) (by decide) (by decide)
  exact ⟨h.2.1, h.2.2.1, h.2.2.2⟩

/-- C9 witness: the concrete batch with the discount field erased. -/
theorem c9_column_semantics_witness :
    insertMultipleInTable (createTables emptyDb) "deals_products" [c9RecA, c9RecB] =
      insertMultipleInTable (createTables emptyDb) "deals_products"
        ([c9RecA, c9RecB].map (eraseField "discount")) ∧
    insertMultipleInTable (createTables emptyDb) "deals_products" [c9RecA, c9RecB] =
      insertMultipleInTable (createTables emptyDb) "deals_products"
        ([c9RecA, c9RecB].map nullifyFalsy) ∧
    getTable (insertMultipleInTable (createTables emptyDb) "deals_products" [c9RecA, c9RecB])
        "deals_products" = some c9Expected := by
  have h := c9_column_semantics (createTables emptyDb) "deals_products" c9RecA [c9RecB] "discount"
  exact ⟨h.1 (by decide), h.2.1, h.2.2⟩
